import Mathlib

/-!
Shallow embedding of the DUFunc specialization table, type resolver and
reduction engine from `numba/np/ufunc/dufunc.py`.

Conventions of the embedding:
* arrays are modelled as C-contiguous buffers: a shape list together with a
  row-major flat data list;
* machine scalars are modelled as `Int` (the claims treated here are about
  index arithmetic, fold order and dispatch, not about wrap-around), and
  `dtype` handling, which only selects the element type of the result
  buffer, is not modelled;
* numba type objects are modelled by small closed enumerations
  (`EType`, `FirstArgTy`, `AxisArgTy`);
* fallible code returns `Except String`; the error strings below stand for
  the exception messages raised by the source.
-/

namespace Dufunc

/-- Message of the `RuntimeError` raised by `_compile_for_argtys` when frozen
(dufunc.py line 228). -/
def compilationDisabledMsg : String := "compilation disabled"

/-- Message of the `ValueError` raised by `impl_nd_axis_int` for an
out-of-range axis (dufunc.py line 435). -/
def invalidAxisMsg : String := "Invalid axis"

/-- Message of the `NumbaTypeError` raised by `ol_reduce` when a function
with no identity is reduced over more than one axis (dufunc.py lines
285-287). -/
def notReorderableMsg : String :=
  "reduction operation is not reorderable, so at most one axis may be specified"

/-- Message of the `NumbaTypeError` raised by `ol_reduce` when the first
argument is not an array (dufunc.py line 275). -/
def arrayLikeMsg : String := "The first argument must be array-like"

/-- Message of the `TypeError` raised by `_type_me` when frozen and no
matching loop exists (dufunc.py lines 560-561). -/
def noMatchMsg : String := "cannot call with given types"

/-- Stands for the `IndexError` the source would hit on `tup[0]` in
`find_min` when the axis tuple is empty. -/
def emptyAxisMsg : String := "tuple index out of range"

/-- Artifact of the embedding: the recursion of `reduceFuel` is bounded by a
fuel counter that is always sufficient (see `reduce`), so this message is
unreachable from `reduce`. -/
def fuelMsg : String := "recursion limit"

/-- Elementwise addition: the combinator of the `add` ufunc with identity 0
used by the spec scenarios. -/
def addOp (a b : Int) : Int := a + b

/-- Elementwise maximum on integers (Python `max` and `np.maximum` agree
here), the combinator of the no-identity `max` ufunc of the spec
scenarios. -/
def maxOp (a b : Int) : Int := if a ≤ b then b else a

/-- A C-contiguous N-dimensional array: a shape plus the row-major flat
data buffer. -/
structure NDArray where
  shape : List Nat
  data : List Int
  deriving DecidableEq

/-- Row-major (C-order) flat position of a full-rank coordinate tuple. -/
def cIndex : List Nat → List Nat → Nat
  | _ :: ss, i :: is => i * ss.prod + cIndex ss is
  | _, _ => 0

/-- Element access at a full-rank coordinate (out-of-range reads give 0;
the source would fault there and no claim exercises that case). -/
def NDArray.get (A : NDArray) (idx : List Nat) : Int :=
  A.data.getD (cIndex A.shape idx) 0

/-- All coordinates of a shape in row-major order: the iteration order of
`np.ndenumerate` used by `impl_nd_axis_int`. -/
def allIdx : List Nat → List (List Nat)
  | [] => [[]]
  | n :: ns => ((List.range n).map (fun i => (allIdx ns).map (fun t => i :: t))).flatten

/-- Byte strides of a C-contiguous buffer of the given shape and element
size: what `r.strides` is for the freshly allocated result array `r` of
`impl_nd_axis_int` (allocated by `np.empty` and `np.full`). -/
def cStrides : List Nat → Nat → List Nat
  | [], _ => []
  | _ :: ss, itemsize => itemsize * ss.prod :: cStrides ss itemsize

/-- `tuple_slice(tup, pos)` (dufunc.py lines 297-308): the tuple with the
component at `pos` removed.  The source builds it by copying every
component except index `pos`, in order, into a fresh tuple. -/
def tuple_slice (tup : List Nat) (pos : Nat) : List Nat :=
  tup.eraseIdx pos

/-- `tuple_slice_append(tup, pos, val)` (dufunc.py lines 310-324): the tuple
with `val` inserted at position `pos`.  The source builds it by copying
`tup` around position `pos`, writing `val` there. -/
def tuple_slice_append (tup : List Nat) (pos : Nat) (val : Nat) : List Nat :=
  tup.take pos ++ val :: tup.drop pos

/-- Loop body of `compute_flat_idx` (dufunc.py lines 392-401): walks the
input coordinate `idx` with counter `i`, consuming one stride (counter `j`
in the source) only at the positions distinct from `axis`. -/
def cfiAux (strides idx : List Nat) (axis i : Nat) : Nat :=
  match idx with
  | [] => 0
  | x :: rest =>
    if i = axis then cfiAux strides rest axis (i + 1)
    else strides.headD 0 * x + cfiAux strides.tail rest axis (i + 1)

/-- `compute_flat_idx(strides, itemsize, idx, axis)` (dufunc.py lines
392-401): the strided flat offset of the reduction inner loop, floor-divided
by the element size. -/
def compute_flat_idx (strides : List Nat) (itemsize : Nat) (idx : List Nat)
    (axis : Nat) : Nat :=
  cfiAux strides idx axis 0 / itemsize

/-- `find_min(tup)` (dufunc.py lines 403-409): index and value of the
smallest component. -/
def find_min (tup : List Nat) : Nat × Nat :=
  (List.range tup.length).foldl
    (fun p i => if tup.getD i 0 < p.2 then (i, tup.getD i 0) else p)
    (0, tup.headD 0)

/-- `impl_1d` (dufunc.py lines 411-424) on the flat data of a rank-1 array:
seed the accumulator from `initial`, else the identity, else `array[0]`,
then fold over `range(sz)` — the loop starts at index 0 in every case
(the source's own comment at lines 420-421 notes it should start at 1 when
the seed was taken from `array[0]`). -/
def impl_1d (op : Int → Int → Int) (identity initial : Option Int)
    (data : List Int) : Int :=
  let r : Int :=
    match initial, identity with
    | none, none => data.headD 0
    | none, some e => e
    | some v, _ => v
  data.foldl op r

/-- Left fold following the words of spec section 4.5 for the rank-1 case:
seed from `initial` if given, else the identity if given, else the first
element, consuming it so that the fold starts at the second element. -/
def spec_fold_1d (op : Int → Int → Int) (identity initial : Option Int)
    (data : List Int) : Int :=
  match initial, identity with
  | some v, _ => data.foldl op v
  | none, some e => data.foldl op e
  | none, none => data.tail.foldl op (data.headD 0)

/-- `impl_nd_axis_int` (dufunc.py lines 426-465): single integer axis
reduction of an array of rank at least 2.  The result buffer has the input
shape with `axis` removed; it is seeded from the slice at index 0 along
`axis` when neither `initial` nor the identity is given, else filled with
the identity or `initial`; then every input coordinate is visited once in
row-major order and folded into the result cell at the strided flat
offset.  `axis < 0` cannot arise here because axes are modelled as `Nat`. -/
def impl_nd_axis_int (op : Int → Int → Int) (identity initial : Option Int)
    (itemsize : Nat) (A : NDArray) (axis : Nat) : Except String NDArray :=
  if A.shape.length ≤ axis then .error invalidAxisMsg
  else
    let shape := tuple_slice A.shape axis
    let r0 : List Int :=
      match initial, identity with
      | none, none => (allIdx shape).map (fun idx => A.get (tuple_slice_append idx axis 0))
      | none, some e => List.replicate shape.prod e
      | some v, _ => List.replicate shape.prod v
    let strides := cStrides shape itemsize
    let view := (allIdx A.shape).foldl
      (fun acc idx =>
        let flat_pos := compute_flat_idx strides itemsize idx axis
        acc.set flat_pos (op (acc.getD flat_pos 0) (A.get idx)))
      r0
    .ok ⟨shape, view⟩

/-- The axis argument of a `reduce` call at the implementation level: a
single integer or a tuple of integers. -/
inductive AxisSpec where
  | int (k : Nat)
  | tup (ks : List Nat)
  deriving DecidableEq

/-- Fuel-indexed body of `reduce`: the dispatch of `ol_reduce` (dufunc.py
lines 488-499) over the three implementations, with `impl_nd_axis_tuple`
(lines 467-486) inlined in the tuple branch.  The fuel only bounds the
recursion through the axis tuple and is always sufficient when the
computation starts with the fuel supplied by `reduce`.  A scalar result is
a rank-0 array. -/
def reduceFuel : Nat → (Int → Int → Int) → Option Int → Nat → NDArray →
    AxisSpec → Option Int → Except String NDArray
  | 0, _, _, _, _, _, _ => .error fuelMsg
  | fuel + 1, op, identity, itemsize, A, axis, initial =>
    if A.shape.length = 1 then
      .ok ⟨[], [impl_1d op identity initial A.data]⟩
    else
      match axis with
      | .int k => impl_nd_axis_int op identity initial itemsize A k
      | .tup [] => .error emptyAxisMsg
      | .tup (a0 :: rest) =>
        let axs := a0 :: rest
        let m := find_min axs
        match reduceFuel fuel op identity itemsize A (.int m.2) initial with
        | .error e => .error e
        | .ok r =>
          if axs.length = 1 then .ok r
          else if axs.length = 2 then
            reduceFuel fuel op identity itemsize r
              (.int (axs.getD ((m.1 + 1) % 2) 0 - 1)) none
          else
            let ax := (List.range (axs.length - 1)).foldl
              (fun a i => if i = m.1 then a else a.set i (axs.getD i 0))
              (List.replicate (axs.length - 1) 0)
            reduceFuel fuel op identity itemsize r (.tup ax) none

/-- Fuel sufficient for `reduceFuel` at the given axis argument. -/
def axisFuel : AxisSpec → Nat
  | .int _ => 1
  | .tup ks => ks.length + 1

/-- `reduce` of the DUFunc reduction engine: `ol_reduce`'s selected
implementation applied to an array, an axis argument and an optional
`initial`, for an elementwise combinator with an optional identity. -/
def reduce (op : Int → Int → Int) (identity : Option Int) (itemsize : Nat)
    (A : NDArray) (axis : AxisSpec) (initial : Option Int) :
    Except String NDArray :=
  reduceFuel (axisFuel axis) op identity itemsize A axis initial

/-- Multi-axis reduction following the words of spec section 4.5: eliminate
the smallest axis index via the single-axis case, then recurse on the
remaining axes with every index greater than the eliminated one decremented
by one, until one axis remains.  Used to compare the source's
`impl_nd_axis_tuple` against the spec. -/
def spec_reduce_axes_fuel : Nat → (Int → Int → Int) → Option Int → Nat →
    NDArray → List Nat → Option Int → Except String NDArray
  | 0, _, _, _, _, _, _ => .error fuelMsg
  | fuel + 1, op, identity, itemsize, A, axes, initial =>
    match axes with
    | [] => .error emptyAxisMsg
    | [k] => reduce op identity itemsize A (.int k) initial
    | _ :: _ :: _ =>
      let m := find_min axes
      match reduce op identity itemsize A (.int m.2) initial with
      | .error e => .error e
      | .ok r =>
        let rest := (axes.eraseIdx m.1).map (fun a => if m.2 < a then a - 1 else a)
        spec_reduce_axes_fuel fuel op identity itemsize r rest none

/-- Entry point of the spec-side multi-axis recursion. -/
def spec_reduce_axes (op : Int → Int → Int) (identity : Option Int)
    (itemsize : Nat) (A : NDArray) (axes : List Nat) (initial : Option Int) :
    Except String NDArray :=
  spec_reduce_axes_fuel axes.length op identity itemsize A axes initial

/-- Numba type of the first argument of `reduce` at typing time. -/
inductive FirstArgTy where
  | array (ndim : Nat)
  | nonArray
  deriving DecidableEq

/-- Numba type of the `axis` argument of `reduce` at typing time:
`types.Integer` (including `types.IntegerLiteral`), a `types.UniTuple` of
integers of the given length, `types.NoneType`, the plain default `0` or a
`types.Omitted` (both dispatched by line 495's `axis == 0 or isinstance`
test), or any other type. -/
inductive AxisArgTy where
  | integer
  | intTuple (n : Nat)
  | noneType
  | omittedZero
  | otherTy
  deriving DecidableEq

/-- The implementation function returned by `ol_reduce`. -/
inductive ImplChoice where
  | implOneD
  | implNdAxisInt
  | implNdAxisTuple
  deriving DecidableEq

/-- The local `axis_int` of `ol_reduce` (dufunc.py line 278):
`isinstance(axis, types.Integer)`. -/
def axis_int : AxisArgTy → Bool
  | .integer => true
  | _ => false

/-- The local `axis_int_tuple` of `ol_reduce` (dufunc.py lines 279-280):
`isinstance(axis, types.UniTuple)` with an integer element type. -/
def axis_int_tuple : AxisArgTy → Bool
  | .intTuple _ => true
  | _ => false

/-- The local `axis_tuple_size` of `ol_reduce` (dufunc.py line 281). -/
def axis_tuple_size : AxisArgTy → Nat
  | .intTuple n => n
  | _ => 0

/-- Condition of the non-reorderability guard of `ol_reduce` (dufunc.py
lines 283-284): the function has no identity and the axis argument is
neither an integer type nor a one-element integer tuple. -/
def reorder_guard_fires (identity : Option Int) (axis : AxisArgTy) : Bool :=
  identity.isNone &&
    !(axis_int axis || (axis_int_tuple axis && (axis_tuple_size axis == 1)))

/-- Implementation selection of `ol_reduce` (dufunc.py lines 488-499):
rank-1 arrays first, then integer-tuple axes, then the integer-like axes
(a `types.Integer`, the plain default `0`, or a `types.Omitted`); any other
axis type selects no implementation. -/
def ol_reduce_dispatch (ndim : Nat) (axis : AxisArgTy) : Option ImplChoice :=
  if ndim = 1 then some .implOneD
  else if axis_int_tuple axis then some .implNdAxisTuple
  else
    match axis with
    | .omittedZero => some .implNdAxisInt
    | .integer => some .implNdAxisInt
    | _ => none

/-- `ol_reduce` (dufunc.py lines 273-499) at typing time: checks the first
argument is an array, then the non-reorderability guard, then selects the
implementation.  `dtype` and `initial` typing do not participate in these
checks and are omitted. -/
def ol_reduce_typing (identity : Option Int) (arr : FirstArgTy)
    (axis : AxisArgTy) : Except String (Option ImplChoice) :=
  match arr with
  | .nonArray => .error arrayLikeMsg
  | .array ndim =>
    if reorder_guard_fires identity axis then .error notReorderableMsg
    else .ok (ol_reduce_dispatch ndim axis)

/-- Element types handled by the specialization table model. -/
inductive EType where
  | int32
  | int64
  | float32
  | float64
  deriving DecidableEq

/-- A registered signature: the element-wise input types, the return type
and the handle of the compiled kernel. -/
structure Sig where
  args : List EType
  ret : EType
  handle : Nat
  deriving DecidableEq

/-- The mutable state of a DUFunc relevant to compilation and lookup: the
frozen flag, the specialization table (`self._dispatcher.overloads`, in
registration order) and the keepalive list. -/
structure DUFuncState where
  frozen : Bool
  overloads : List Sig
  keepalive : List Nat
  deriving DecidableEq

/-- Modelled from the spec: NumPy safe casting between the modelled element
types (glossary entry and section 4.2 of the spec; the real check lives in
NumPy, outside this repository). -/
def can_cast_safely : EType → EType → Bool
  | .int32, .int32 => true
  | .int32, .int64 => true
  | .int32, .float64 => true
  | .int64, .int64 => true
  | .int64, .float64 => true
  | .float32, .float32 => true
  | .float32, .float64 => true
  | .float64, .float64 => true
  | _, _ => false

/-- Promotion rank used to order candidate loops, smaller meaning less
promoting. -/
def etypeRank : EType → Nat
  | .int32 => 0
  | .int64 => 1
  | .float32 => 2
  | .float64 => 3

/-- Strict lexicographic comparison of rank lists, left to right. -/
def lexLess : List Nat → List Nat → Bool
  | a :: as, b :: bs => if a < b then true else if b < a then false else lexLess as bs
  | _, _ => false

/-- Modelled from the spec: `numpy_support.ufunc_find_matching_loop`, which
lives in `numba/np/numpy_support.py` and is not under `src/`.  Following
spec section 4.2: among all stored signatures, select one such that every
call-site input type can be safely cast to the corresponding stored input
type, preferring the least-promoting candidate position by position, left
to right; report no match if none qualifies. -/
def ufunc_find_matching_loop (overloads : List Sig) (ewise : List EType) :
    Option Sig :=
  let candidates := overloads.filter (fun sig =>
    (sig.args.length == ewise.length) &&
      (ewise.zip sig.args).all (fun p => can_cast_safely p.1 p.2))
  candidates.foldl
    (fun best c =>
      match best with
      | none => some c
      | some b =>
        if lexLess (c.args.map etypeRank) (b.args.map etypeRank) then some c
        else some b)
    none

/-- `find_ewise_function` (dufunc.py lines 517-535): when frozen, first
coerce the query to the best matching loop's types (no match reports two
Nones), then in either mode scan the table for an exact structural match,
returning the first hit or none.  The lookup is pure: it never writes to
the state. -/
def find_ewise_function (s : DUFuncState) (ewise : List EType) : Option Sig :=
  if s.frozen then
    match ufunc_find_matching_loop s.overloads ewise with
    | none => none
    | some loop =>
      let coerced := (loop.args ++ [loop.ret]).take ewise.length
      s.overloads.find? (fun sig => sig.args == coerced)
  else
    s.overloads.find? (fun sig => sig.args == ewise)

/-- `_compile_for_argtys` (dufunc.py lines 219-243): raises (state
unchanged) when frozen, else compiles through the backend — modelled by
`backendRet` choosing the return type and a fresh handle — and registers
the new signature in the table and the keepalive list. -/
def _compile_for_argtys (backendRet : List EType → EType) (s : DUFuncState)
    (argtys : List EType) (return_type : Option EType) :
    DUFuncState × Except String Sig :=
  if s.frozen then (s, .error compilationDisabledMsg)
  else
    let rt : EType :=
      match return_type with
      | some r => r
      | none => backendRet argtys
    let sig : Sig := ⟨argtys, rt, s.keepalive.length⟩
    (⟨s.frozen, s.overloads ++ [sig], s.keepalive ++ [sig.handle]⟩, .ok sig)

/-- `add` (dufunc.py lines 181-186): normalizes the signature (the
normalization itself is external `sigutils`; the model receives the
normalized input types and optional return type) and delegates to
`_compile_for_argtys`. -/
def add (backendRet : List EType → EType) (s : DUFuncState)
    (argtys : List EType) (return_type : Option EType) :
    DUFuncState × Except String Sig :=
  _compile_for_argtys backendRet s argtys return_type

/-- Resolution core of `_type_me` (dufunc.py lines 555-564): look up the
element-wise types; on a miss fail when frozen, else compile for exactly
those types and look up again. -/
def _type_me_resolution (backendRet : List EType → EType) (s : DUFuncState)
    (ewise : List EType) : DUFuncState × Except String Sig :=
  match find_ewise_function s ewise with
  | some sig => (s, .ok sig)
  | none =>
    if s.frozen then (s, .error noMatchMsg)
    else
      match _compile_for_argtys backendRet s ewise none with
      | (s1, .error e) => (s1, .error e)
      | (s1, .ok _) =>
        match find_ewise_function s1 ewise with
        | some sig => (s1, .ok sig)
        | none => (s1, .error noMatchMsg)

/-- The single float64 specialization of spec scenario 3. -/
def sigF64 : Sig := ⟨[.float64, .float64], .float64, 0⟩

/-- A frozen DUFunc state holding only the float64 specialization. -/
def frozenF64 : DUFuncState := ⟨true, [sigF64], [0]⟩

/-! ## Theorems -/

/-- Invariant of the inner loop of `compute_flat_idx`: from counter `i`
onward, the loop computes the dot product of the coordinate with the
component at position `axis - i` removed (no component is removed once the
counter has passed `axis`) against the remaining strides. -/
theorem cfiAux_eq_eraseIdx (idx : List Nat) : ∀ (strides : List Nat) (axis i : Nat),
    cfiAux strides idx axis i
      = (((if i ≤ axis then idx.eraseIdx (axis - i) else idx).zip strides).map
          (fun p => p.1 * p.2)).sum := by
  induction idx with
  | nil =>
    intro strides axis i
    by_cases h : i ≤ axis <;> simp [cfiAux, h]
  | cons x rest ih =>
    intro strides axis i
    rcases Nat.lt_trichotomy i axis with hlt | heq | hgt
    · have hne : ¬ i = axis := Nat.ne_of_lt hlt
      have hle : i ≤ axis := Nat.le_of_lt hlt
      have hle1 : i + 1 ≤ axis := hlt
      have hsub : axis - i = (axis - (i + 1)) + 1 := by omega
      rw [cfiAux, if_neg hne, ih strides.tail axis (i + 1), if_pos hle1,
        if_pos hle, hsub, List.eraseIdx_cons_succ]
      cases strides with
      | nil => simp
      | cons s ss => simp [Nat.mul_comm]
    · subst heq
      rw [cfiAux, if_pos rfl, ih strides i (i + 1),
        if_neg (by omega : ¬ i + 1 ≤ i), if_pos (Nat.le_refl i)]
      simp [Nat.sub_self]
    · have hne : ¬ i = axis := by omega
      rw [cfiAux, if_neg hne, ih strides.tail axis (i + 1),
        if_neg (by omega : ¬ i + 1 ≤ axis), if_neg (by omega : ¬ i ≤ axis)]
      cases strides with
      | nil => simp
      | cons s ss => simp [Nat.mul_comm]

/-- Claim C9: the flat offset computed by the reduction inner loop is the
sum, over all coordinate positions except the reduced axis, of the
coordinate component times the result stride at the corresponding position,
divided by the element size — that is, the input coordinate with the
reduced axis's component omitted, reinterpreted against the result array's
strides. -/
theorem claim_C9_flat_offset_formula (strides : List Nat) (itemsize : Nat)
    (idx : List Nat) (axis : Nat) :
    compute_flat_idx strides itemsize idx axis
      = (((idx.eraseIdx axis).zip strides).map (fun p => p.1 * p.2)).sum
          / itemsize := by
  unfold compute_flat_idx
  rw [cfiAux_eq_eraseIdx, if_pos (Nat.zero_le axis), Nat.sub_zero]

/-- `find_min` of a one-element tuple returns index 0 and that element. -/
theorem find_min_single (k : Nat) : find_min [k] = (0, k) := by
  have h : List.range 1 = [0] := rfl
  simp [find_min, h]

/-- `reduce` at an integer axis, unfolded one step. -/
theorem reduce_int_eq (op : Int → Int → Int) (identity : Option Int)
    (itemsize : Nat) (A : NDArray) (k : Nat) (initial : Option Int) :
    reduce op identity itemsize A (.int k) initial
      = if A.shape.length = 1 then .ok ⟨[], [impl_1d op identity initial A.data]⟩
        else impl_nd_axis_int op identity initial itemsize A k := rfl

/-- `reduce` at a one-element axis tuple, unfolded one step. -/
theorem reduce_tup_single_eq (op : Int → Int → Int) (identity : Option Int)
    (itemsize : Nat) (A : NDArray) (k : Nat) (initial : Option Int) :
    reduce op identity itemsize A (.tup [k]) initial
      = if A.shape.length = 1 then .ok ⟨[], [impl_1d op identity initial A.data]⟩
        else
          match reduceFuel 1 op identity itemsize A (.int (find_min [k]).2) initial with
          | .error e => .error e
          | .ok r => .ok r := rfl

/-- Claim C7: for a valid integer axis `k`, `reduce` succeeds and the
result's shape is the input shape with the component at position `k`
removed (a rank-1 input yields a rank-0 result); and reducing over the
one-element tuple `(k,)` gives exactly the same result as reducing over the
integer axis `k`. -/
theorem claim_C7_axis_removal_shape (op : Int → Int → Int)
    (identity initial : Option Int) (itemsize : Nat) (A : NDArray) (k : Nat)
    (hk : k < A.shape.length) :
    (∃ B, reduce op identity itemsize A (.int k) initial = .ok B
        ∧ B.shape = A.shape.eraseIdx k)
    ∧ reduce op identity itemsize A (.tup [k]) initial
        = reduce op identity itemsize A (.int k) initial := by
  constructor
  · by_cases h1 : A.shape.length = 1
    · obtain ⟨n, hn⟩ := List.length_eq_one.mp h1
      refine ⟨⟨[], [impl_1d op identity initial A.data]⟩, ?_, ?_⟩
      · rw [reduce_int_eq, if_pos h1]
      · have hk0 : k = 0 := by omega
        simp [hn, hk0]
    · have h2 : ¬ A.shape.length ≤ k := by omega
      rw [reduce_int_eq, if_neg h1]
      unfold impl_nd_axis_int
      rw [if_neg h2]
      exact ⟨_, rfl, rfl⟩
  · by_cases h1 : A.shape.length = 1
    · rw [reduce_tup_single_eq, reduce_int_eq, if_pos h1, if_pos h1]
    · rw [reduce_tup_single_eq, reduce_int_eq, if_neg h1, if_neg h1,
        find_min_single]
      have hr : reduceFuel 1 op identity itemsize A (.int k) initial
          = impl_nd_axis_int op identity initial itemsize A k := by
        have h3 : reduce op identity itemsize A (.int k) initial
            = impl_nd_axis_int op identity initial itemsize A k := by
          rw [reduce_int_eq, if_neg h1]
        exact h3
      rw [hr]
      cases impl_nd_axis_int op identity initial itemsize A k <;> rfl

/-- Witness for claim C7 at a concrete shape-(2,2) array and axis 0. -/
theorem claim_C7_witness :
    0 < ((⟨[2, 2], [1, 2, 3, 4]⟩ : NDArray)).shape.length ∧
    ((∃ B, reduce addOp none 4 ⟨[2, 2], [1, 2, 3, 4]⟩ (.int 0) none = .ok B
        ∧ B.shape = ([2, 2] : List Nat).eraseIdx 0)
     ∧ reduce addOp none 4 ⟨[2, 2], [1, 2, 3, 4]⟩ (.tup [0]) none
        = reduce addOp none 4 ⟨[2, 2], [1, 2, 3, 4]⟩ (.int 0) none) :=
  ⟨by decide, claim_C7_axis_removal_shape addOp none none 4
    ⟨[2, 2], [1, 2, 3, 4]⟩ 0 (by decide)⟩

/-- Claim C5: the element-wise lookup returns only exact structural matches
when unfrozen (and two Nones when none exists); when frozen, a failed
promotion search reports no match, and a successful one returns the stored
signature whose inputs are the matched loop's types; the lookup itself
never writes the state, and in the frozen resolution path the table never
changes — in particular, spec scenario 3: a frozen function holding only a
float64 specialization, queried at int32 inputs, resolves to the float64
signature with the state unchanged. -/
theorem claim_C5_find_ewise_resolution (ovs : List Sig) (ka : List Nat)
    (e : List EType) :
    (∀ sig, find_ewise_function ⟨false, ovs, ka⟩ e = some sig →
        sig ∈ ovs ∧ sig.args = e)
    ∧ ((∀ sig ∈ ovs, sig.args ≠ e) → find_ewise_function ⟨false, ovs, ka⟩ e = none)
    ∧ (ufunc_find_matching_loop ovs e = none →
        find_ewise_function ⟨true, ovs, ka⟩ e = none)
    ∧ (∀ loop sig, ufunc_find_matching_loop ovs e = some loop →
        find_ewise_function ⟨true, ovs, ka⟩ e = some sig →
        sig ∈ ovs ∧ sig.args = (loop.args ++ [loop.ret]).take e.length)
    ∧ (∀ backendRet, (_type_me_resolution backendRet ⟨true, ovs, ka⟩ e).1
        = ⟨true, ovs, ka⟩)
    ∧ _type_me_resolution (fun _ => EType.float64) frozenF64
        [EType.int32, EType.int32] = (frozenF64, .ok sigF64) := by
  refine ⟨?_, ?_, ?_, ?_, ?_, rfl⟩
  · intro sig h
    simp only [find_ewise_function, Bool.false_eq_true, if_false] at h
    exact ⟨List.mem_of_find?_eq_some h, by simpa using List.find?_some h⟩
  · intro hall
    simp only [find_ewise_function, Bool.false_eq_true, if_false]
    rw [List.find?_eq_none]
    intro x hx
    simpa using hall x hx
  · intro h
    simp only [find_ewise_function, if_true, h]
  · intro loop sig hloop hfind
    simp only [find_ewise_function, if_true, hloop] at hfind
    exact ⟨List.mem_of_find?_eq_some hfind, by simpa using List.find?_some hfind⟩
  · intro backendRet
    unfold _type_me_resolution
    cases hf : find_ewise_function ⟨true, ovs, ka⟩ e with
    | some sig => rfl
    | none => rfl

/-- Witness for claim C5: the unfrozen exact-match clause discharged at a
one-entry table queried at exactly its registered types. -/
theorem claim_C5_witness :
    sigF64 ∈ [sigF64] ∧ sigF64.args = [EType.float64, EType.float64] :=
  (claim_C5_find_ewise_resolution [sigF64] [0]
    [EType.float64, EType.float64]).1 sigF64 rfl

/-- Claim C1: the rank-1 reduction should seed from `A[0]` and then fold
from `A[1]` when neither `initial` nor an identity is given.  The code
seeds from `A[0]` but starts the fold at index 0 again, so `A[0]` is folded
twice: on `[1, 2, 3]` with `add` and no identity the code returns 7 where
the specified fold returns 6 (the source's own comment at dufunc.py lines
420-421 says the loop should start at 1 in this case). -/
theorem claim_C1_seed_first_element_double_fold :
    reduce addOp none 4 ⟨[3], [1, 2, 3]⟩ (.int 0) none = .ok ⟨[], [7]⟩
    ∧ spec_fold_1d addOp none none [1, 2, 3] = 6 :=
  ⟨rfl, rfl⟩

/-- Claim C2: on the all-ones array of shape (2,1,3,1) with `add`
(identity 0) and `axis=(1,2,3)`, the code — which neither decrements the
remaining axis indices nor drops the eliminated slot in its three-or-more
axes branch — returns the array [2,2,2] of shape (3,), while the recursion
the claim specifies (eliminate the smallest axis, decrement the greater
remaining indices) returns [3,3] of shape (2,). -/
theorem claim_C2_multi_axis_recursion_mismatch :
    reduce addOp (some 0) 4 ⟨[2, 1, 3, 1], [1, 1, 1, 1, 1, 1]⟩
        (.tup [1, 2, 3]) none = .ok ⟨[3], [2, 2, 2]⟩
    ∧ spec_reduce_axes addOp (some 0) 4 ⟨[2, 1, 3, 1], [1, 1, 1, 1, 1, 1]⟩
        [1, 2, 3] none = .ok ⟨[2], [3, 3]⟩ :=
  ⟨rfl, rfl⟩

/-- Claim C6: for the elementwise `add` with identity 0, reducing the
rank-1 int32 array [1,2,3,4] returns 10. -/
theorem claim_C6_add_identity_reduce_ten :
    reduce addOp (some 0) 4 ⟨[4], [1, 2, 3, 4]⟩ (.int 0) none
      = .ok ⟨[], [10]⟩ :=
  rfl

/-- Claim C8: for the elementwise `max` with no identity, reducing the
shape-(2,3) array [[1,5,2],[4,0,6]] along axis 0 returns [4,5,6] of
shape (3,). -/
theorem claim_C8_max_axis0 :
    reduce maxOp none 4 ⟨[2, 3], [1, 5, 2, 4, 0, 6]⟩ (.int 0) none
      = .ok ⟨[3], [4, 5, 6]⟩ :=
  rfl

/-- Claim C10: whenever the first argument of `reduce` is not an array
type, typing fails with the array-like type error, whatever the identity
and the axis argument are — the check precedes the axis handling. -/
theorem claim_C10_non_array_rejected (identity : Option Int)
    (axis : AxisArgTy) :
    ol_reduce_typing identity .nonArray axis = .error arrayLikeMsg :=
  rfl

/-- Claim C3: when the function declares no identity element, `reduce`
rejects every axis argument that is neither an integer type nor a
one-element integer tuple with the non-reorderable type error — integer
tuples of two or more axes, the none type, and every other axis type —
while an integer axis or a one-element integer tuple is still accepted
(an implementation is selected). -/
theorem claim_C3_no_identity_multi_axis_guard (identity : Option Int)
    (ndim : Nat) (axis : AxisArgTy)
    (hax : axis ≠ .integer ∧ axis ≠ .intTuple 1) :
    ol_reduce_typing none (.array ndim) axis = .error notReorderableMsg
    ∧ (∃ c, ol_reduce_typing identity (.array ndim) .integer = .ok (some c))
    ∧ (∃ c, ol_reduce_typing identity (.array ndim) (.intTuple 1) = .ok (some c)) := by
  refine ⟨?_, ?_, ?_⟩
  · cases axis with
    | integer => exact absurd rfl hax.1
    | intTuple n =>
      have hn : n ≠ 1 := fun h => hax.2 (by rw [h])
      have h1 : (n == 1) = false := by simp only [beq_eq_false_iff_ne, ne_eq]; omega
      simp [ol_reduce_typing, reorder_guard_fires, axis_int, axis_int_tuple,
        axis_tuple_size, h1]
    | noneType =>
      simp [ol_reduce_typing, reorder_guard_fires, axis_int, axis_int_tuple,
        axis_tuple_size]
    | omittedZero =>
      simp [ol_reduce_typing, reorder_guard_fires, axis_int, axis_int_tuple,
        axis_tuple_size]
    | otherTy =>
      simp [ol_reduce_typing, reorder_guard_fires, axis_int, axis_int_tuple,
        axis_tuple_size]
  · by_cases hd : ndim = 1
    · exact ⟨.implOneD, by simp [ol_reduce_typing, reorder_guard_fires,
        axis_int, ol_reduce_dispatch, hd]⟩
    · exact ⟨.implNdAxisInt, by simp [ol_reduce_typing, reorder_guard_fires,
        axis_int, axis_int_tuple, ol_reduce_dispatch, hd]⟩
  · by_cases hd : ndim = 1
    · exact ⟨.implOneD, by simp [ol_reduce_typing, reorder_guard_fires,
        axis_int, axis_int_tuple, axis_tuple_size, ol_reduce_dispatch, hd]⟩
    · exact ⟨.implNdAxisTuple, by simp [ol_reduce_typing, reorder_guard_fires,
        axis_int, axis_int_tuple, axis_tuple_size, ol_reduce_dispatch, hd]⟩

/-- Witness for claim C3 at a rank-2 array, a 2-tuple of axes and no
identity. -/
theorem claim_C3_witness :
    ((AxisArgTy.intTuple 2 ≠ .integer) ∧ (AxisArgTy.intTuple 2 ≠ .intTuple 1)) ∧
    (ol_reduce_typing none (.array 2) (.intTuple 2) = .error notReorderableMsg
     ∧ (∃ c, ol_reduce_typing none (.array 2) .integer = .ok (some c))
     ∧ (∃ c, ol_reduce_typing none (.array 2) (.intTuple 1) = .ok (some c))) :=
  ⟨by decide, claim_C3_no_identity_multi_axis_guard none 2 (.intTuple 2) (by decide)⟩

/-- Claim C4: once frozen, both `add` and the internal
compile-for-argument-types path fail with the compilation-disabled error,
leaving the state — in particular the specialization table — unchanged. -/
theorem claim_C4_frozen_compile_rejected (backendRet : List EType → EType)
    (s : DUFuncState) (argtys : List EType) (return_type : Option EType)
    (hf : s.frozen = true) :
    add backendRet s argtys return_type = (s, .error compilationDisabledMsg)
    ∧ _compile_for_argtys backendRet s argtys return_type
        = (s, .error compilationDisabledMsg)
    ∧ (add backendRet s argtys return_type).1.overloads = s.overloads := by
  simp [add, _compile_for_argtys, hf]

/-- Witness for claim C4 at the concrete frozen float64-only state. -/
theorem claim_C4_witness :
    frozenF64.frozen = true ∧
    (add (fun _ => EType.float64) frozenF64 [EType.int32] none
        = (frozenF64, .error compilationDisabledMsg)
     ∧ _compile_for_argtys (fun _ => EType.float64) frozenF64 [EType.int32] none
        = (frozenF64, .error compilationDisabledMsg)
     ∧ (add (fun _ => EType.float64) frozenF64 [EType.int32] none).1.overloads
        = frozenF64.overloads) :=
  ⟨rfl, claim_C4_frozen_compile_rejected (fun _ => EType.float64) frozenF64
    [EType.int32] none rfl⟩

end Dufunc
